import Mathlib

/-!
Verification of the Markdown-to-NDJSON conversion scripts
(`convert_to_ndjson.py` and `json/convert_minimax_guide.py`).

Python strings are modelled as `List Char` (a Python `str` is a sequence of
code points).  Pure helper functions mirror the Python string operations used
by the scripts; each definition's doc comment names the source construct it
embeds.
-/

namespace Konva

/-- Python `\s` / `str.isspace` on the ASCII range (the whitespace characters
that occur in the repository's inputs): space, tab, newline, carriage return,
vertical tab, form feed. -/
def pyIsSpace (c : Char) : Bool :=
  c = ' ' || c = '\t' || c = '\n' || c = '\r' || c = '\x0b' || c = '\x0c'

/-- Python `s.split('\n')`: split a string into lines at every newline
character.  Always returns at least one (possibly empty) piece, exactly like
the Python method. -/
def splitNL : List Char → List (List Char)
  | [] => [[]]
  | c :: cs =>
    if c = '\n' then [] :: splitNL cs
    else
      match splitNL cs with
      | [] => [[c]]
      | l :: ls => (c :: l) :: ls

/-- Python `a.startswith(p)`. -/
def startsWithPy (p l : List Char) : Bool :=
  match p, l with
  | [], _ => true
  | _ :: _, [] => false
  | a :: ps, b :: ls => a = b && startsWithPy ps ls

/-- Python `a.endswith(s)`. -/
def endsWithPy (s l : List Char) : Bool :=
  startsWithPy s.reverse l.reverse

/-- Strip trailing Python whitespace (the right half of `str.strip()`). -/
def stripRight (l : List Char) : List Char :=
  (l.reverse.dropWhile pyIsSpace).reverse

/-- Python `s.strip()`: remove leading and trailing whitespace. -/
def pyStrip (l : List Char) : List Char :=
  stripRight (l.dropWhile pyIsSpace)

/-- Python `s.lstrip('# ')`: remove every leading character drawn from the
set containing `#` and the space (note: a *set* of characters, not a prefix
string — this also removes `#` characters that belong to the heading text). -/
def lstripHashSpace (l : List Char) : List Char :=
  l.dropWhile (fun c => c = '#' || c = ' ')

/-! ## Bounded NDJSON Writer

Both scripts share the same shard-packing loop
(`convert_to_ndjson.py` lines 94–123, `convert_minimax_guide.py`
lines 101–126): for each record a serialized line size is computed (UTF-8
bytes of the JSON line including its newline terminator); if adding the line
would push the current shard over `maxSize` *and* the current shard already
holds at least one record, the current shard is flushed and a fresh shard is
started; the line is then appended to the (possibly fresh) current shard; at
end of input a non-empty current shard is flushed.

The loop only inspects each record through its serialized line size, so the
writer is embedded generically over a record type `α` and a size function
`lineSize : α → Nat` standing for `len(json.dumps(record).encode()) + 1`.
The result is the list of shards, each shard the list of records it holds. -/

/-- One pass of the writer loop: `cur` is the list of records accumulated in
the currently open shard (the code's `output_records` / lines written since
the last open; its byte size `current_file_size` is the sum of their line
sizes). -/
def writeShardsAux (maxSize : Nat) (lineSize : α → Nat) :
    List α → List α → List (List α)
  | [], [] => []
  | c :: cs, [] => [c :: cs]
  | [], r :: rest => writeShardsAux maxSize lineSize [r] rest
  | c :: cs, r :: rest =>
    if ((c :: cs).map lineSize).sum + lineSize r > maxSize then
      (c :: cs) :: writeShardsAux maxSize lineSize [r] rest
    else
      writeShardsAux maxSize lineSize (c :: cs ++ [r]) rest

/-- The Bounded NDJSON Writer: partition `records` into shards none of which
exceeds `maxSize` bytes, except that a single oversized record occupies a
shard by itself. -/
def writeShards (maxSize : Nat) (lineSize : α → Nat) (records : List α) :
    List (List α) :=
  writeShardsAux maxSize lineSize [] records

/-- Byte size of a shard: the sum of the serialized line sizes (each line size
already includes its newline terminator). -/
def shardSize (lineSize : α → Nat) (shard : List α) : Nat :=
  (shard.map lineSize).sum

/-! ## Spec-side heading definitions

The claims describe heading detection as: the line starts with one to three
hash characters followed by a single space, and the title is the heading text
with the leading hash markers and surrounding whitespace stripped.  The next
definitions state exactly those words, for comparison with the code. -/

/-- Length of the leading run of hash characters of a line. -/
def hashRun : List Char → Nat
  | [] => 0
  | c :: cs => if c = '#' then hashRun cs + 1 else 0

/-- Stated from the claim's words, for comparison with the code's heading
tests: a line is a heading when its leading run of hash characters has length
one to three and the run is followed by a space character. -/
def specIsHeading (l : List Char) : Bool :=
  decide (1 ≤ hashRun l) && decide (hashRun l ≤ 3) &&
    (match l.drop (hashRun l) with
     | c :: _ => c = ' '
     | [] => false)

/-- Stated from the claim's words, for comparison with the code: the title of
a heading line is the heading text — the line after its leading hash
markers — with surrounding whitespace stripped and otherwise unmodified. -/
def specTitle (l : List Char) : List Char :=
  pyStrip (l.drop (hashRun l))

end Konva

namespace ConvertToNdjson
open Konva

/-- A section as built by `split_markdown_into_sections` in
`convert_to_ndjson.py` (lines 19–23): a title, a heading level, and the list
of content lines. -/
structure MdSection where
  title : List Char
  level : Nat
  content : List (List Char)
deriving DecidableEq, Repr

/-- The title computation shared by the three heading branches
(`convert_to_ndjson.py` lines 31, 39, 47): `line.lstrip('# ').strip()`.
The three call sites pass `'# '`, `'## '` and `'### '` to `lstrip`, but
`lstrip` treats its argument as a *set* of characters, so all three are the
same operation. -/
def titleOf (l : List Char) : List Char :=
  pyStrip (lstripHashSpace l)

/-- The heading test of the `elif` chain (`convert_to_ndjson.py` lines
27, 35, 43): the line starts with hash-space, hash-hash-space, or
hash-hash-hash-space. -/
def isHeadingLine (l : List Char) : Bool :=
  startsWithPy "# ".data l || startsWithPy "## ".data l ||
    startsWithPy "### ".data l

/-- The loop of `split_markdown_into_sections` (`convert_to_ndjson.py` lines
25–55), with `cur` the section currently being accumulated.  A level-1
heading (and the end of input) emits `cur` when its content is non-empty or
its title differs from the sentinel; a level-2 or level-3 heading emits `cur`
only when its content is non-empty.  Every non-heading line is appended to
`cur`'s content. -/
def splitAux : List (List Char) → MdSection → List MdSection
  | [], cur =>
    if cur.content ≠ [] ∨ cur.title ≠ "Introduction".data then [cur] else []
  | l :: rest, cur =>
    if startsWithPy "# ".data l then
      (if cur.content ≠ [] ∨ cur.title ≠ "Introduction".data then [cur]
       else []) ++ splitAux rest ⟨titleOf l, 1, []⟩
    else if startsWithPy "## ".data l then
      (if cur.content ≠ [] then [cur] else []) ++
        splitAux rest ⟨titleOf l, 2, []⟩
    else if startsWithPy "### ".data l then
      (if cur.content ≠ [] then [cur] else []) ++
        splitAux rest ⟨titleOf l, 3, []⟩
    else
      splitAux rest { cur with content := cur.content ++ [l] }

/-- `split_markdown_into_sections` of `convert_to_ndjson.py` (lines 12–57):
split the document into lines at newlines and run the accumulation loop
starting from the sentinel section. -/
def split_markdown_into_sections (content : List Char) : List MdSection :=
  splitAux (splitNL content) ⟨"Introduction".data, 0, []⟩

end ConvertToNdjson

namespace ConvertMinimaxGuide
open Konva

/-- A section as built by `split_markdown_into_sections` in
`convert_minimax_guide.py` (lines 40–46): zero-based index, heading level,
title, accumulated content string, and content length. -/
structure MdSection where
  section_index : Nat
  heading_level : Nat
  title : List Char
  content : List Char
  content_length : Nat
deriving DecidableEq, Repr

/-- The regex test `re.match(r'^(#{1,3})\s+(.+)$', line)` of
`convert_minimax_guide.py` line 28, on a line (which contains no newline,
since the document was split at newlines): the greedy `#{1,3}` can only
match the whole leading hash run, which must have length one to three and be
followed by at least one whitespace character; `(.+)$` then needs at least
one further character.  Returns the heading level (the hash count) and the
group-2 text: the remainder after the whitespace run, except that when the
remainder is all whitespace the greedy `\s+` backtracks one character and
group 2 is that final whitespace character. -/
def headingMatch (line : List Char) : Option (Nat × List Char) :=
  let r := hashRun line
  let rest := line.drop r
  let afterWs := rest.dropWhile pyIsSpace
  if 1 ≤ r ∧ r ≤ 3 ∧ pyIsSpace (rest.headD 'x') = true then
    if afterWs ≠ [] then some (r, afterWs)
    else if 2 ≤ rest.length then some (r, [rest.getLastD ' '])
    else none
  else none

/-- Creation of a new section at a heading (`convert_minimax_guide.py`
lines 37–46): the title is `heading_match.group(2).strip()`, the content
starts empty. -/
def newSection (idx lvl : Nat) (text : List Char) : MdSection :=
  ⟨idx, lvl, pyStrip text, [], 0⟩

/-- The loop of `split_markdown_into_sections` in `convert_minimax_guide.py`
(lines 23–59): lines before the first heading are skipped; a heading line
saves the previous section when its content is non-blank and opens a new
section; any other line is appended (with a newline) to the current section's
content.  At end of input the final section is saved under the same
non-blank check. -/
def split2Aux : List (List Char) → Option MdSection → Nat → List MdSection
  | [], cur, _ =>
    match cur with
    | some s => if pyStrip s.content ≠ [] then [s] else []
    | none => []
  | l :: rest, cur, idx =>
    match headingMatch l with
    | some (lvl, text) =>
      match cur with
      | some s =>
        if pyStrip s.content ≠ [] then
          s :: split2Aux rest (some (newSection (idx + 1) lvl text)) (idx + 1)
        else
          split2Aux rest (some (newSection idx lvl text)) idx
      | none => split2Aux rest (some (newSection idx lvl text)) idx
    | none =>
      match cur with
      | some s =>
        split2Aux rest (some { s with content := s.content ++ l ++ ['\n'] })
          idx
      | none => split2Aux rest none idx

/-- The cleanup pass of `convert_minimax_guide.py` lines 61–64: strip the
content and recompute the content length. -/
def finalizeSection (s : MdSection) : MdSection :=
  { s with content := pyStrip s.content,
           content_length := (pyStrip s.content).length }

/-- `split_markdown_into_sections` of `convert_minimax_guide.py` (lines
13–69): run the loop from no current section, clean up, and drop empty
sections (line 67). -/
def split_markdown_into_sections (content : List Char) : List MdSection :=
  ((split2Aux (splitNL content) none 0).map finalizeSection).filter
    (fun s => decide (0 < s.content_length))

/-! ## Fine-tuning Transformer (`convert_ndjson_to_finetuning`, lines
131–188) -/

/-- An NDJSON record as read back by `convert_ndjson_to_finetuning`: the
fields the transformer accesses (`title`, `heading_level`, `source_file`,
`content`). -/
structure NdjsonRecord where
  title : List Char
  heading_level : Nat
  source_file : List Char
  content : List Char
deriving DecidableEq, Repr

/-- One role-tagged entry of a fine-tuning record's `messages` array. -/
structure Message where
  role : List Char
  content : List Char
deriving DecidableEq, Repr

/-- The fixed assistant acknowledgement string (line 178). -/
def assistantAck : List Char :=
  "This documentation has been reviewed and is ready for reference.".data

/-- The system message content (line 171):
`f"Section: ...title...\nLevel: H...heading_level...\nSource: ...source_file..."`. -/
def systemContent (r : NdjsonRecord) : List Char :=
  "Section: ".data ++ r.title ++ "\nLevel: H".data ++
    (toString r.heading_level).data ++ "\nSource: ".data ++ r.source_file

/-- The `messages` array built for one record (lines 174–180). -/
def finetuningMessages (r : NdjsonRecord) : List Message :=
  [⟨"system".data, systemContent r⟩,
   ⟨"user".data, r.content⟩,
   ⟨"assistant".data, assistantAck⟩]

/-- One line of an input shard file, as seen by the per-line loop (lines
163–185): either blank (only whitespace, skipped by the
`if not line.strip(): continue` test) or a line that `json.loads` parses to
a record with the required fields (a malformed line raises instead). -/
inductive FileLine where
  | blank : FileLine
  | record : NdjsonRecord → FileLine
deriving DecidableEq

/-- The per-line loop of `convert_ndjson_to_finetuning` over one shard file:
each non-blank line contributes exactly one fine-tuning record, in order. -/
def convertFileLines : List FileLine → List (List Message)
  | [] => []
  | .blank :: rest => convertFileLines rest
  | .record r :: rest => finetuningMessages r :: convertFileLines rest

/-! ## Shard-file discovery and processing order (lines 139–157) -/

/-- Python `input_file.rsplit('.', 1)[0] if '.' in input_file else input_file`
(line 139): everything before the last dot. -/
def basePath (s : List Char) : List Char :=
  if s.contains '.' then
    ((s.reverse.dropWhile (fun c => c != '.')).drop 1).reverse
  else s

/-- `glob.glob(f"{base_path}_part_*.ndjson")` membership test (line 143) for
a slash-free file name: it starts with the base followed by `_part_` and the
remainder ends with `.ndjson` (the `*` matches any characters, including
none). -/
def matchesShardGlob (base : List Char) (name : List Char) : Bool :=
  startsWithPy (base ++ "_part_".data) name &&
    endsWithPy ".ndjson".data (name.drop (base ++ "_part_".data).length)

/-- Python `<` on strings: lexicographic comparison by code point. -/
def pyLt : List Char → List Char → Bool
  | [], [] => false
  | [], _ :: _ => true
  | _ :: _, [] => false
  | x :: xs, y :: ys =>
    if x < y then true else if y < x then false else pyLt xs ys

/-- Insert into an ascending list, keeping it ascending. -/
def insertAsc (x : List Char) : List (List Char) → List (List Char)
  | [] => [x]
  | y :: ys => if pyLt x y then x :: y :: ys else y :: insertAsc x ys

/-- Python `sorted` on a list of strings: the ascending lexicographic
reordering, modelled by insertion sort over `pyLt` (for the pairwise-distinct
file names sorted here, any sort produces the same ascending list). -/
def sortedPy : List (List Char) → List (List Char)
  | [] => []
  | x :: xs => insertAsc x (sortedPy xs)

/-- The shard-file discovery of `convert_ndjson_to_finetuning` (lines
139–155): glob for `_part_` siblings of the input file among the `existing`
file names, sort them, drop the ones already carrying the fine-tuning
suffix; if none remain, fall back to the input file itself unless it carries
the fine-tuning suffix (in which case the file is skipped and nothing is
processed). -/
def discoverInputs (existing : List (List Char)) (input_file : List Char) :
    List (List Char) :=
  let base := basePath input_file
  let part_files :=
    (sortedPy (existing.filter (matchesShardGlob base))).filter
      (fun f => ! endsWithPy "_finetuning.ndjson".data f)
  if part_files = [] then
    if endsWithPy "_finetuning.ndjson".data input_file then []
    else [input_file]
  else part_files

/-- The shard file name for part `k` of a source
(`output_file.replace('.ndjson', f'_part_{part_num}.ndjson')`, line 115):
base, `_part_`, the unpadded decimal part number, `.ndjson`. -/
def shardFileName (base : List Char) (k : Nat) : List Char :=
  base ++ "_part_".data ++ (toString k).data ++ ".ndjson".data

/-- The shard files of one source in shard numbering order: parts 1 to `n`. -/
def shardFilesInOrder (base : List Char) (n : Nat) : List (List Char) :=
  (List.range n).map (fun i => shardFileName base (i + 1))

/-- The order in which `convert_ndjson_to_finetuning` processes the shard
files of one source, `sorted(glob.glob(f"{base_path}_part_*.ndjson"))`
(line 143): `glob` returns the shard files present on disk (enumerated here
in numbering order; the ascending result of `sorted` does not depend on that
enumeration) and `sorted` orders them ascending lexicographically. -/
def processOrder (base : List Char) (n : Nat) : List (List Char) :=
  sortedPy (shardFilesInOrder base n)

end ConvertMinimaxGuide

/-! ## Helper lemmas -/

namespace Konva

theorem splitNL_ne_nil (s : List Char) : splitNL s ≠ [] := by
  induction s with
  | nil => simp [splitNL]
  | cons c cs ih =>
    simp only [splitNL]
    split
    · simp
    · cases h : splitNL cs <;> simp

theorem writeShardsAux_bound (maxSize : Nat) (lineSize : α → Nat)
    (records cur : List α)
    (hcur : shardSize lineSize cur ≤ maxSize ∨ ∃ r, cur = [r])
    (shard : List α)
    (hmem : shard ∈ writeShardsAux maxSize lineSize cur records)
    (hover : shardSize lineSize shard > maxSize) :
    ∃ r, shard = [r] ∧ lineSize r > maxSize := by
  induction records generalizing cur with
  | nil =>
    match cur, hcur with
    | [], _ => simp [writeShardsAux] at hmem
    | c :: cs, hcur =>
      simp only [writeShardsAux, List.mem_singleton] at hmem
      subst hmem
      rcases hcur with h | ⟨r, hr⟩
      · omega
      · exact ⟨r, hr, by rw [hr] at hover; simpa [shardSize] using hover⟩
  | cons r rest ih =>
    match cur, hcur with
    | [], _ =>
      simp only [writeShardsAux] at hmem
      exact ih [r] (Or.inr ⟨r, rfl⟩) hmem
    | c :: cs, hcur =>
      simp only [writeShardsAux] at hmem
      split at hmem
      · rename_i hsplit
        rcases List.mem_cons.mp hmem with rfl | hmem
        · rcases hcur with h | ⟨s, hs⟩
          · omega
          · exact ⟨s, hs, by rw [hs] at hover; simpa [shardSize] using hover⟩
        · exact ih [r] (Or.inr ⟨r, rfl⟩) hmem
      · rename_i hsplit
        refine ih (c :: cs ++ [r]) ?_ hmem
        left
        simp only [shardSize, List.map_cons, List.map_append, List.sum_cons,
          List.sum_append, List.map_nil, List.sum_nil] at *
        omega

theorem pyStrip_dropWhile (xs : List Char) :
    pyStrip (xs.dropWhile pyIsSpace) = pyStrip xs := by
  simp only [pyStrip, List.dropWhile_idempotent]

theorem pyStrip_single_of_space (c : Char) (h : pyIsSpace c = true) :
    pyStrip [c] = [] := by
  simp [pyStrip, stripRight, List.dropWhile, h]

theorem prop_getLastD (p : Char → Bool) (xs : List Char) (d : Char)
    (hall : ∀ c ∈ xs, p c = true) (hne : xs ≠ []) :
    p (xs.getLastD d) = true := by
  cases xs with
  | nil => exact absurd rfl hne
  | cons x t =>
    rw [List.getLastD_cons]
    exact hall _ (List.getLastD_mem_cons t x)

theorem specIsHeading_false_of_manyHashes (l : List Char)
    (h : 4 ≤ hashRun l) : specIsHeading l = false := by
  have hle : ¬ (hashRun l ≤ 3) := by omega
  simp [specIsHeading, hle]

end Konva

namespace ConvertToNdjson
open Konva

/-- Unfolding the loop at a level-1 heading line. -/
theorem splitAux_cons_lvl1 (l : List Char) (rest : List (List Char))
    (cur : MdSection) (h : startsWithPy "# ".data l = true) :
    splitAux (l :: rest) cur =
      (if cur.content ≠ [] ∨ cur.title ≠ "Introduction".data then [cur]
       else []) ++ splitAux rest ⟨titleOf l, 1, []⟩ := by
  simp [splitAux, h]

/-- A line starting with hash-hash-space does not start with hash-space. -/
theorem startsHH_not_H (l : List Char)
    (h : startsWithPy "## ".data l = true) :
    startsWithPy "# ".data l = false := by
  rcases l with _ | ⟨c1, _ | ⟨c2, t⟩⟩
  · simp [startsWithPy] at h
  · simp [startsWithPy] at h
  · simp only [startsWithPy, Bool.and_eq_true, decide_eq_true_eq] at h
    rcases h with ⟨rfl, h2⟩
    rcases h2 with ⟨rfl, -⟩
    simp [startsWithPy]

/-- A line starting with three hashes and a space starts with neither
hash-space nor hash-hash-space. -/
theorem startsHHH_not_H_HH (l : List Char)
    (h : startsWithPy "### ".data l = true) :
    startsWithPy "# ".data l = false ∧ startsWithPy "## ".data l = false := by
  rcases l with _ | ⟨c1, _ | ⟨c2, _ | ⟨c3, t⟩⟩⟩
  · simp [startsWithPy] at h
  · simp [startsWithPy] at h
  · simp [startsWithPy] at h
  · simp only [startsWithPy, Bool.and_eq_true, decide_eq_true_eq] at h
    rcases h with ⟨rfl, rfl, rfl, -⟩
    constructor <;> simp [startsWithPy]

/-- Unfolding the loop at a level-2 heading line. -/
theorem splitAux_cons_lvl2 (l : List Char) (rest : List (List Char))
    (cur : MdSection) (h : startsWithPy "## ".data l = true) :
    splitAux (l :: rest) cur =
      (if cur.content ≠ [] then [cur] else []) ++
        splitAux rest ⟨titleOf l, 2, []⟩ := by
  simp [splitAux, startsHH_not_H l h, h]

/-- Unfolding the loop at a level-3 heading line. -/
theorem splitAux_cons_lvl3 (l : List Char) (rest : List (List Char))
    (cur : MdSection) (h : startsWithPy "### ".data l = true) :
    splitAux (l :: rest) cur =
      (if cur.content ≠ [] then [cur] else []) ++
        splitAux rest ⟨titleOf l, 3, []⟩ := by
  simp [splitAux, (startsHHH_not_H_HH l h).1, (startsHHH_not_H_HH l h).2, h]

/-- Unfolding the loop at a non-heading line. -/
theorem splitAux_cons_line (l : List Char) (rest : List (List Char))
    (cur : MdSection) (h : isHeadingLine l = false) :
    splitAux (l :: rest) cur =
      splitAux rest { cur with content := cur.content ++ [l] } := by
  have h1 : startsWithPy "# ".data l = false := by
    cases hx : startsWithPy "# ".data l
    · rfl
    · simp [isHeadingLine, hx] at h
  have h2 : startsWithPy "## ".data l = false := by
    cases hx : startsWithPy "## ".data l
    · rfl
    · simp [isHeadingLine, hx] at h
  have h3 : startsWithPy "### ".data l = false := by
    cases hx : startsWithPy "### ".data l
    · rfl
    · simp [isHeadingLine, hx] at h
  simp [splitAux, h1, h2, h3]

/-- The three heading tests together are the `isHeadingLine` predicate. -/
theorem isHeadingLine_of_lvl1 (l : List Char)
    (h : startsWithPy "# ".data l = true) : isHeadingLine l = true := by
  simp [isHeadingLine, h]

theorem isHeadingLine_of_lvl2 (l : List Char)
    (h : startsWithPy "## ".data l = true) : isHeadingLine l = true := by
  simp [isHeadingLine, h]

theorem isHeadingLine_of_lvl3 (l : List Char)
    (h : startsWithPy "### ".data l = true) : isHeadingLine l = true := by
  simp [isHeadingLine, h]

/-- The contents emitted by the splitter are exactly the non-heading lines,
in order, prefixed by whatever the current section had already accumulated. -/
theorem splitAux_contents (lines : List (List Char)) :
    ∀ cur : MdSection,
      ((splitAux lines cur).map MdSection.content).flatten
        = cur.content ++ lines.filter (fun l => ! isHeadingLine l) := by
  induction lines with
  | nil =>
    intro cur
    simp only [splitAux, List.filter_nil, List.append_nil]
    split
    · simp
    · rename_i h
      push_neg at h
      simp [h.1]
  | cons l rest ih =>
    intro cur
    have emit : ∀ (P : Prop) [Decidable P],
        (¬ P → cur.content = []) →
        ((if P then [cur] else []).map MdSection.content).flatten
          = cur.content := by
      intro P _ hp
      split
      · simp
      · rename_i hnp
        simp [hp hnp]
    cases h1 : startsWithPy "# ".data l with
    | true =>
      have hh := isHeadingLine_of_lvl1 l h1
      have hfil : List.filter (fun l => ! isHeadingLine l) (l :: rest)
          = List.filter (fun l => ! isHeadingLine l) rest := by simp [hh]
      rw [splitAux_cons_lvl1 l rest cur h1, hfil, List.map_append,
        List.flatten_append, ih]
      rw [emit _ (fun hnp => by push_neg at hnp; exact hnp.1)]
      simp
    | false =>
      cases h2 : startsWithPy "## ".data l with
      | true =>
        have hh := isHeadingLine_of_lvl2 l h2
        have hfil : List.filter (fun l => ! isHeadingLine l) (l :: rest)
            = List.filter (fun l => ! isHeadingLine l) rest := by simp [hh]
        rw [splitAux_cons_lvl2 l rest cur h2, hfil, List.map_append,
          List.flatten_append, ih]
        rw [emit _ (fun hnp => by push_neg at hnp; exact hnp)]
        simp
      | false =>
        cases h3 : startsWithPy "### ".data l with
        | true =>
          have hh := isHeadingLine_of_lvl3 l h3
          have hfil : List.filter (fun l => ! isHeadingLine l) (l :: rest)
              = List.filter (fun l => ! isHeadingLine l) rest := by simp [hh]
          rw [splitAux_cons_lvl3 l rest cur h3, hfil, List.map_append,
            List.flatten_append, ih]
          rw [emit _ (fun hnp => by push_neg at hnp; exact hnp)]
          simp
        | false =>
          have hh : isHeadingLine l = false := by
            simp [isHeadingLine, h1, h2, h3]
          have hfil : List.filter (fun l => ! isHeadingLine l) (l :: rest)
              = l :: List.filter (fun l => ! isHeadingLine l) rest := by
            simp [hh]
          rw [splitAux_cons_line l rest cur hh, hfil, ih]
          simp

/-- On a run of non-heading lines the loop only grows the current section's
content; the final flush emits the section unless it is the untouched
sentinel. -/
theorem splitAux_no_heading (lines : List (List Char))
    (h : ∀ l ∈ lines, isHeadingLine l = false) :
    ∀ cur : MdSection,
      splitAux lines cur =
        if cur.content ++ lines ≠ [] ∨ cur.title ≠ "Introduction".data then
          [{ cur with content := cur.content ++ lines }] else [] := by
  induction lines with
  | nil =>
    intro cur
    simp [splitAux]
  | cons l rest ih =>
    intro cur
    have hl : isHeadingLine l = false := h l (List.mem_cons_self l rest)
    have hrest : ∀ x ∈ rest, isHeadingLine x = false := fun x hx =>
      h x (List.mem_cons_of_mem l hx)
    rw [splitAux_cons_line l rest cur hl, ih hrest]
    have hne : cur.content ++ [l] ++ rest ≠ [] := by simp
    have hne2 : cur.content ++ l :: rest ≠ [] := by simp
    simp only [hne, hne2, ne_eq, not_false_eq_true, true_or, if_true]
    simp [List.append_assoc]

/-- The `elif` chain of the first script detects exactly the headings the
claims describe: one to three leading hashes followed by a space. -/
theorem isHeadingLine_eq_specIsHeading (l : List Char) :
    isHeadingLine l = specIsHeading l := by
  have nsp : (' ' : Char) ≠ '#' := by decide
  rcases l with _ | ⟨c1, t1⟩
  · rfl
  by_cases h1 : c1 = '#'
  · subst h1
    rcases t1 with _ | ⟨c2, t2⟩
    · rfl
    by_cases h2 : c2 = '#'
    · subst h2
      rcases t2 with _ | ⟨c3, t3⟩
      · rfl
      by_cases h3 : c3 = '#'
      · subst h3
        rcases t3 with _ | ⟨c4, t4⟩
        · rfl
        by_cases h4 : c4 = '#'
        · subst h4
          rfl
        · by_cases h4s : c4 = ' '
          · subst h4s
            rfl
          · simp [isHeadingLine, startsWithPy, specIsHeading, hashRun, nsp,
              h4, h4s, Ne.symm h4, Ne.symm h4s]
      · by_cases h3s : c3 = ' '
        · subst h3s
          rfl
        · simp [isHeadingLine, startsWithPy, specIsHeading, hashRun, nsp,
            h3, h3s, Ne.symm h3, Ne.symm h3s]
    · by_cases h2s : c2 = ' '
      · subst h2s
        rfl
      · simp [isHeadingLine, startsWithPy, specIsHeading, hashRun, nsp, h2,
          h2s, Ne.symm h2, Ne.symm h2s]
  · simp [isHeadingLine, startsWithPy, specIsHeading, hashRun, nsp, h1,
      Ne.symm h1]

end ConvertToNdjson

namespace ConvertMinimaxGuide
open Konva

/-- When no line matches the heading regex and there is no current section,
the loop of the second script produces nothing: every line hits the
`Skip lines before first heading` branch. -/
theorem split2Aux_no_heading (lines : List (List Char))
    (h : ∀ l ∈ lines, headingMatch l = none) :
    ∀ idx, split2Aux lines none idx = [] := by
  induction lines with
  | nil => intro idx; rfl
  | cons l rest ih =>
    intro idx
    have hl : headingMatch l = none := h l (List.mem_cons_self l rest)
    have hrest : ∀ x ∈ rest, headingMatch x = none := fun x hx =>
      h x (List.mem_cons_of_mem l hx)
    simp only [split2Aux, hl]
    exact ih hrest idx

/-- Prepending a common prefix does not change a lexicographic comparison. -/
theorem pyLt_append_same (p u v : List Char) :
    pyLt (p ++ u) (p ++ v) = pyLt u v := by
  induction p with
  | nil => rfl
  | cons c cs ih =>
    simp only [List.cons_append, pyLt, if_neg (lt_irrefl c)]
    exact ih

/-- Insertion sort leaves a strictly ascending list unchanged. -/
theorem sortedPy_of_chain :
    ∀ l : List (List Char),
      List.Chain' (fun a b => pyLt a b = true) l → sortedPy l = l := by
  intro l
  induction l with
  | nil => intro _; rfl
  | cons x xs ih =>
    intro h
    cases xs with
    | nil => rfl
    | cons y ys =>
      have h1 : pyLt x y = true := (List.chain'_cons.mp h).1
      have h2 := (List.chain'_cons.mp h).2
      simp only [sortedPy] at *
      rw [ih h2]
      simp [insertAsc, h1]

/-- Lines whose leading hash run is four or more never match the heading
regex: the `#{1,3}` group cannot cover the run. -/
theorem headingMatch_none_of_manyHashes (l : List Char)
    (h : 4 ≤ hashRun l) : headingMatch l = none := by
  simp only [headingMatch]
  rw [if_neg]
  rintro ⟨-, h2, -⟩
  omega

end ConvertMinimaxGuide

/-! ## Claims -/

/-- C1: every shard produced by the Bounded NDJSON Writer has byte size
(line terminators included) at most the configured maximum `maxSize`, unless
the shard consists of exactly one record whose own serialized line size
already exceeds `maxSize`. -/
theorem c1_shard_size_bound {α : Type} (maxSize : Nat) (lineSize : α → Nat)
    (records : List α) (shard : List α)
    (hmem : shard ∈ Konva.writeShards maxSize lineSize records)
    (hover : Konva.shardSize lineSize shard > maxSize) :
    ∃ r, shard = [r] ∧ lineSize r > maxSize :=
  Konva.writeShardsAux_bound maxSize lineSize records []
    (Or.inl (by simp [Konva.shardSize])) shard hmem hover

/-- Witness for C1: with budget 5 and record sizes 3, 4, 10, 2 the writer
produces shards [3], [4], [10], [2]; the oversized shard [10] is a singleton
whose record exceeds the budget. -/
theorem c1_shard_size_bound_witness :
    ∃ r, ([10] : List Nat) = [r] ∧ r > 5 :=
  c1_shard_size_bound 5 (fun n => n) [3, 4, 10, 2] [10]
    (by simp [Konva.writeShards, Konva.writeShardsAux])
    (by simp [Konva.shardSize])

/-- Counterexample to C2: the document consisting of the lines `Hello` and
`World` contains no heading line (in the claim's sense), yet the second
script's Section Splitter produces zero sections — not one section holding
every line — because it skips all lines before the first heading. -/
theorem c2_counterexample :
    (Konva.splitNL "Hello\nWorld".data).all
        (fun l => ! Konva.specIsHeading l) = true
    ∧ ConvertMinimaxGuide.split_markdown_into_sections "Hello\nWorld".data
        = [] := by
  exact ⟨by decide, by decide⟩

/-- C2 (amended): for a document none of whose lines is a heading, the first
script's Section Splitter produces exactly one section with the sentinel
title, level 0 and every line of the document as content, while the second
script's Section Splitter produces no section at all. -/
theorem c2_no_heading_document (doc : List Char) :
    ((Konva.splitNL doc).all
        (fun l => ! ConvertToNdjson.isHeadingLine l) = true →
      ConvertToNdjson.split_markdown_into_sections doc
        = [⟨"Introduction".data, 0, Konva.splitNL doc⟩])
    ∧ ((Konva.splitNL doc).all
        (fun l => (ConvertMinimaxGuide.headingMatch l).isNone) = true →
      ConvertMinimaxGuide.split_markdown_into_sections doc = []) := by
  constructor
  · intro h
    have hall : ∀ l ∈ Konva.splitNL doc,
        ConvertToNdjson.isHeadingLine l = false := by
      intro l hl
      have := List.all_eq_true.mp h l hl
      simpa using this
    unfold ConvertToNdjson.split_markdown_into_sections
    rw [ConvertToNdjson.splitAux_no_heading (Konva.splitNL doc) hall
      ⟨"Introduction".data, 0, []⟩]
    have hne : ([] : List (List Char)) ++ Konva.splitNL doc ≠ [] := by
      simpa using Konva.splitNL_ne_nil doc
    rw [if_pos (Or.inl hne)]
    simp
  · intro h
    have hall : ∀ l ∈ Konva.splitNL doc,
        ConvertMinimaxGuide.headingMatch l = none := by
      intro l hl
      exact Option.isNone_iff_eq_none.mp (List.all_eq_true.mp h l hl)
    unfold ConvertMinimaxGuide.split_markdown_into_sections
    rw [ConvertMinimaxGuide.split2Aux_no_heading (Konva.splitNL doc) hall 0]
    rfl

/-- Witness for the amended C2, at the heading-free document
`Hello\nWorld`. -/
theorem c2_no_heading_document_witness :
    ConvertToNdjson.split_markdown_into_sections "Hello\nWorld".data
      = [⟨"Introduction".data, 0, Konva.splitNL "Hello\nWorld".data⟩]
    ∧ ConvertMinimaxGuide.split_markdown_into_sections "Hello\nWorld".data
      = [] :=
  ⟨(c2_no_heading_document "Hello\nWorld".data).1 (by decide),
   (c2_no_heading_document "Hello\nWorld".data).2 (by decide)⟩

/-- Counterexample to C3: the second script's heading test is the regex
`#{1,3}` followed by `\s+` and a non-empty remainder, not "one to three
hashes followed by a single space".  The line consisting of a hash and a
space starts with one hash followed by a single space but is not treated as
a heading (no text follows), while a hash followed by a tab and text does
not start with hash-space yet is treated as a level-1 heading. -/
theorem c3_counterexample :
    Konva.specIsHeading "# ".data = true
    ∧ ConvertMinimaxGuide.headingMatch "# ".data = none
    ∧ Konva.specIsHeading "#\tx".data = false
    ∧ ConvertMinimaxGuide.headingMatch "#\tx".data = some (1, "x".data) := by
  exact ⟨by decide, by decide, by decide, by decide⟩

/-- C3 (amended): the first script's heading test agrees exactly with "one
to three leading hashes followed by a space", and in both scripts a line
with four or more leading hashes is never treated as a heading (the second
script instead requires one to three hashes, at least one whitespace
character, and a non-empty remainder). -/
theorem c3_heading_detection (l : List Char) :
    ConvertToNdjson.isHeadingLine l = Konva.specIsHeading l
    ∧ (4 ≤ Konva.hashRun l →
        ConvertToNdjson.isHeadingLine l = false
        ∧ ConvertMinimaxGuide.headingMatch l = none) := by
  refine ⟨ConvertToNdjson.isHeadingLine_eq_specIsHeading l, fun h => ⟨?_, ?_⟩⟩
  · rw [ConvertToNdjson.isHeadingLine_eq_specIsHeading l]
    exact Konva.specIsHeading_false_of_manyHashes l h
  · exact ConvertMinimaxGuide.headingMatch_none_of_manyHashes l h

/-- Witness for the amended C3, at the four-hash line `#### x`. -/
theorem c3_heading_detection_witness :
    ConvertToNdjson.isHeadingLine "#### x".data
        = Konva.specIsHeading "#### x".data
    ∧ (ConvertToNdjson.isHeadingLine "#### x".data = false
       ∧ ConvertMinimaxGuide.headingMatch "#### x".data = none) :=
  ⟨(c3_heading_detection "#### x".data).1,
   (c3_heading_detection "#### x".data).2 (by decide)⟩

/-- Counterexample to C4: the second script's Section Splitter loses
non-heading lines.  The single-line document `Hello` has no heading and its
line is not a heading, yet the splitter emits no section, so no
interleaving of section contents with heading lines can reproduce the
document. -/
theorem c4_counterexample :
    ConvertMinimaxGuide.split_markdown_into_sections "Hello".data = []
    ∧ (Konva.splitNL "Hello".data).filter
        (fun l => ! ConvertToNdjson.isHeadingLine l) = ["Hello".data] := by
  exact ⟨by decide, by decide⟩

/-- C4 (amended): for the first script, concatenating the `content` fields
of all produced sections in order yields exactly the non-heading lines of
the document in their original order — equivalently, re-inserting each
heading line at its original position reproduces the document's lines.  (The
second script drops the lines before the first heading and strips each
section's content, so the claim fails for it.) -/
theorem c4_roundtrip (doc : List Char) :
    ((ConvertToNdjson.split_markdown_into_sections doc).map
        ConvertToNdjson.MdSection.content).flatten
      = (Konva.splitNL doc).filter
          (fun l => ! ConvertToNdjson.isHeadingLine l) := by
  unfold ConvertToNdjson.split_markdown_into_sections
  rw [ConvertToNdjson.splitAux_contents]
  simp

/-- Counterexample to C5: on the heading line `# #Special` the first
script's `lstrip('# ')` also removes the hash character that belongs to the
heading text, so the produced title is `Special` while the heading text
with only the leading hash markers and surrounding whitespace stripped is
`#Special`. -/
theorem c5_counterexample :
    ConvertToNdjson.split_markdown_into_sections "# #Special\nx".data
      = [⟨"Special".data, 1, ["x".data]⟩]
    ∧ Konva.specTitle "# #Special".data = "#Special".data
    ∧ "Special".data ≠ "#Special".data := by
  exact ⟨by decide, by decide, by decide⟩

/-- C5 (amended): in the second script, every heading line's new section has
level equal to the count of leading hash characters and title equal to the
heading text with the leading hashes and surrounding whitespace stripped,
otherwise unmodified.  (In the first script the level is likewise the hash
count, but `lstrip('# ')` also deletes hash and space characters at the
start of the heading text itself.) -/
theorem c5_title_level (l : List Char) (lvl : Nat) (text : List Char)
    (idx : Nat)
    (h : ConvertMinimaxGuide.headingMatch l = some (lvl, text)) :
    lvl = Konva.hashRun l
    ∧ (ConvertMinimaxGuide.newSection idx lvl text).title
        = Konva.specTitle l := by
  simp only [ConvertMinimaxGuide.headingMatch] at h
  split at h
  · split at h
    · rw [Option.some.injEq, Prod.mk.injEq] at h
      obtain ⟨rfl, rfl⟩ := h
      refine ⟨rfl, ?_⟩
      show Konva.pyStrip ((l.drop (Konva.hashRun l)).dropWhile Konva.pyIsSpace)
          = Konva.specTitle l
      exact Konva.pyStrip_dropWhile (l.drop (Konva.hashRun l))
    · rename_i hcond hne
      split at h
      · rename_i hlen
        rw [Option.some.injEq, Prod.mk.injEq] at h
        obtain ⟨rfl, rfl⟩ := h
        refine ⟨rfl, ?_⟩
        have hAfter : (l.drop (Konva.hashRun l)).dropWhile Konva.pyIsSpace
            = [] := by
          by_contra hx
          exact hne hx
        have hall : ∀ c ∈ l.drop (Konva.hashRun l),
            Konva.pyIsSpace c = true := by
          intro c hc
          exact List.dropWhile_eq_nil_iff.mp hAfter c hc
        have hnenil : l.drop (Konva.hashRun l) ≠ [] := by
          intro h0
          rw [h0] at hlen
          simp at hlen
        have hws := Konva.prop_getLastD Konva.pyIsSpace
          (l.drop (Konva.hashRun l)) ' ' hall hnenil
        show Konva.pyStrip [(l.drop (Konva.hashRun l)).getLastD ' ']
            = Konva.specTitle l
        rw [Konva.pyStrip_single_of_space _ hws]
        unfold Konva.specTitle Konva.pyStrip
        rw [hAfter]
        rfl
      · exact absurd h (by simp)
  · exact absurd h (by simp)

/-- Witness for the amended C5, at the heading line `## Foo`. -/
theorem c5_title_level_witness :
    2 = Konva.hashRun "## Foo".data
    ∧ (ConvertMinimaxGuide.newSection 0 2 "Foo".data).title
        = Konva.specTitle "## Foo".data :=
  c5_title_level "## Foo".data 2 "Foo".data 0 (by decide)

/-- Counterexample to C6: on the exact input of the claim the first script's
Section Splitter does produce two sections, but the second one's content is
the two lines `Foo` and the empty line (Python's `split('\n')` yields a
final empty line for the trailing newline and the splitter appends it), not
the single line `Foo`. -/
theorem c6_counterexample :
    ConvertToNdjson.split_markdown_into_sections
        "# Title\nHello\nWorld\n## Sub\nFoo\n".data
      = [⟨"Title".data, 1, ["Hello".data, "World".data]⟩,
         ⟨"Sub".data, 2, ["Foo".data, []]⟩]
    ∧ (["Foo".data, ([] : List Char)] ≠ ["Foo".data]) := by
  exact ⟨by decide, by decide⟩

/-- C6 (amended): on the input `# Title\nHello\nWorld\n## Sub\nFoo\n` the
second script produces exactly the two claimed sections (contents
`Hello\nWorld` and `Foo`), while the first script produces the two sections
with the second one's content being the lines `Foo` and the empty line. -/
theorem c6_example_sections :
    ConvertMinimaxGuide.split_markdown_into_sections
        "# Title\nHello\nWorld\n## Sub\nFoo\n".data
      = [⟨0, 1, "Title".data, "Hello\nWorld".data, 11⟩,
         ⟨1, 2, "Sub".data, "Foo".data, 3⟩]
    ∧ ConvertToNdjson.split_markdown_into_sections
        "# Title\nHello\nWorld\n## Sub\nFoo\n".data
      = [⟨"Title".data, 1, ["Hello".data, "World".data]⟩,
         ⟨"Sub".data, 2, ["Foo".data, []]⟩] := by
  exact ⟨by decide, by decide⟩

/-- C7: for every record with the fields `title`, `heading_level`,
`source_file` and `content`, the Fine-tuning Transformer emits exactly one
record whose `messages` field is the ordered triple system, user, assistant,
with the system content `Section: ` + title + `\nLevel: H` + heading_level +
`\nSource: ` + source_file, the user content equal to the record's content
unmodified, and the assistant content the fixed acknowledgement string. -/
theorem c7_finetuning_record (r : ConvertMinimaxGuide.NdjsonRecord) :
    (ConvertMinimaxGuide.convertFileLines
        [ConvertMinimaxGuide.FileLine.record r]).length = 1
    ∧ ConvertMinimaxGuide.convertFileLines
        [ConvertMinimaxGuide.FileLine.record r]
      = [[⟨"system".data,
           "Section: ".data ++ r.title ++ "\nLevel: H".data ++
             (toString r.heading_level).data ++ "\nSource: ".data ++
             r.source_file⟩,
          ⟨"user".data, r.content⟩,
          ⟨"assistant".data,
           "This documentation has been reviewed and is ready for reference.".data⟩]] :=
  ⟨rfl, rfl⟩

/-- Counterexample to C8: `sorted` orders the shard file names
lexicographically, so with ten shards the file of shard 10 is processed
immediately after shard 1 and before shard 2 — not in shard numbering
order. -/
theorem c8_counterexample :
    ConvertMinimaxGuide.processOrder "doc".data 10
      = ["doc_part_1.ndjson".data, "doc_part_10.ndjson".data,
         "doc_part_2.ndjson".data, "doc_part_3.ndjson".data,
         "doc_part_4.ndjson".data, "doc_part_5.ndjson".data,
         "doc_part_6.ndjson".data, "doc_part_7.ndjson".data,
         "doc_part_8.ndjson".data, "doc_part_9.ndjson".data]
    ∧ ConvertMinimaxGuide.processOrder "doc".data 10
        ≠ ConvertMinimaxGuide.shardFilesInOrder "doc".data 10 := by
  exact ⟨by decide, by decide⟩

/-- C8 (amended): the shard files are processed one after another in
ascending lexicographic filename order, which coincides with the shard
numbering order whenever there are at most nine shards (with ten or more
shards the lexicographic order diverges from the numbering order). -/
theorem c8_process_order (base : List Char) (n : Nat) (hn : n ≤ 9) :
    ConvertMinimaxGuide.processOrder base n
      = ConvertMinimaxGuide.shardFilesInOrder base n := by
  unfold ConvertMinimaxGuide.processOrder
  apply ConvertMinimaxGuide.sortedPy_of_chain
  unfold ConvertMinimaxGuide.shardFilesInOrder
  rw [List.chain'_map]
  cases n with
  | zero => simp
  | succ m =>
    rw [List.chain'_range_succ]
    intro i hi
    unfold ConvertMinimaxGuide.shardFileName
    simp only [List.append_assoc]
    rw [ConvertMinimaxGuide.pyLt_append_same]
    have h7 : i ≤ 7 := by omega
    interval_cases i <;> decide

/-- Witness for the amended C8, with three shards. -/
theorem c8_process_order_witness :
    ConvertMinimaxGuide.processOrder "konva-minimax-guide".data 3
      = ConvertMinimaxGuide.shardFilesInOrder "konva-minimax-guide".data 3 :=
  c8_process_order "konva-minimax-guide".data 3 (by decide)

/-- C9: the Fine-tuning Transformer never treats a file whose name ends in
`_finetuning.ndjson` as an input: whatever files exist, every file selected
by the discovery step lacks the fine-tuning suffix, so re-running the
transformation skips previously transformed outputs. -/
theorem c9_no_finetuning_inputs (existing : List (List Char))
    (input_file f : List Char)
    (hf : f ∈ ConvertMinimaxGuide.discoverInputs existing input_file) :
    Konva.endsWithPy "_finetuning.ndjson".data f = false := by
  simp only [ConvertMinimaxGuide.discoverInputs] at hf
  split at hf
  · split at hf
    · simp at hf
    · rename_i hni
      rw [List.mem_singleton] at hf
      subst hf
      cases hb : Konva.endsWithPy "_finetuning.ndjson".data f
      · rfl
      · exact absurd hb hni
  · have := (List.mem_filter.mp hf).2
    simpa using this

/-- Witness for C9: among a real shard file and an already-transformed
output, discovery selects only the shard file, which lacks the suffix. -/
theorem c9_no_finetuning_inputs_witness :
    Konva.endsWithPy "_finetuning.ndjson".data "a_part_1.ndjson".data
      = false :=
  c9_no_finetuning_inputs
    ["a_part_1.ndjson".data, "a_part_1_finetuning.ndjson".data]
    "a.ndjson".data "a_part_1.ndjson".data (by decide)

/-- C10: in the first script, a level-2 or level-3 heading (or nothing at
all, when the previous section is the untouched sentinel) silently discards
a current section with empty content, while a level-1 heading emits a
section with empty content as long as its title differs from the sentinel
`Introduction`; the end of input uses the same check as a level-1 heading.
Consequently `# A\n## B\nx` loses section A entirely, while `# A\n# B\nx`
keeps A with empty content. -/
theorem c10_close_policy :
    (∀ (cur : ConvertToNdjson.MdSection) (rest : List (List Char))
       (l : List Char),
       Konva.startsWithPy "## ".data l = true → cur.content = [] →
         ConvertToNdjson.splitAux (l :: rest) cur
           = ConvertToNdjson.splitAux rest ⟨ConvertToNdjson.titleOf l, 2, []⟩)
    ∧ (∀ (cur : ConvertToNdjson.MdSection) (rest : List (List Char))
         (l : List Char),
         Konva.startsWithPy "### ".data l = true → cur.content = [] →
           ConvertToNdjson.splitAux (l :: rest) cur
             = ConvertToNdjson.splitAux rest
                 ⟨ConvertToNdjson.titleOf l, 3, []⟩)
    ∧ (∀ (cur : ConvertToNdjson.MdSection) (rest : List (List Char))
         (l : List Char),
         Konva.startsWithPy "# ".data l = true → cur.content = [] →
           cur.title ≠ "Introduction".data →
           ConvertToNdjson.splitAux (l :: rest) cur
             = cur :: ConvertToNdjson.splitAux rest
                 ⟨ConvertToNdjson.titleOf l, 1, []⟩)
    ∧ (∀ cur : ConvertToNdjson.MdSection,
         ConvertToNdjson.splitAux [] cur
           = if cur.content ≠ [] ∨ cur.title ≠ "Introduction".data then [cur]
             else [])
    ∧ ConvertToNdjson.split_markdown_into_sections "# A\n## B\nx".data
        = [⟨"B".data, 2, ["x".data]⟩]
    ∧ ConvertToNdjson.split_markdown_into_sections "# A\n# B\nx".data
        = [⟨"A".data, 1, []⟩, ⟨"B".data, 1, ["x".data]⟩] := by
  refine ⟨?_, ?_, ?_, ?_, by decide, by decide⟩
  · intro cur rest l hl hc
    rw [ConvertToNdjson.splitAux_cons_lvl2 l rest cur hl]
    simp [hc]
  · intro cur rest l hl hc
    rw [ConvertToNdjson.splitAux_cons_lvl3 l rest cur hl]
    simp [hc]
  · intro cur rest l hl hc ht
    rw [ConvertToNdjson.splitAux_cons_lvl1 l rest cur hl]
    rw [if_pos (Or.inr ht)]
    rfl
  · intro cur
    rfl

/-- Witness for C10: an empty section opened by `# A` is dropped at an
immediately following `## B` heading. -/
theorem c10_close_policy_witness :
    ConvertToNdjson.splitAux ["## B".data] ⟨"A".data, 1, []⟩
      = ConvertToNdjson.splitAux []
          ⟨ConvertToNdjson.titleOf "## B".data, 2, []⟩ :=
  c10_close_policy.1 ⟨"A".data, 1, []⟩ [] "## B".data (by decide) rfl
